import Mathlib

/-!
Verification of the itinerary-planner optimisation core.

This development gives a shallow embedding of `src/optimiser.py`
(`solve_itinerary`, `run_optimize` and the per-day route reconstruction)
and proves or refutes the documented properties of that code.

Conventions of the embedding:
* Python floats are modelled by `ℚ`; the MIP integer variables `u` by `ℤ`.
* A Python dict place record is `RawPlace`; a field produced by `dict.get`
  is an `Option`.
* A Python runtime exception (ZeroDivisionError / ValueError) is modelled
  by `Option.none` in the functions that can raise.
* The external MILP solver is opaque: a "solved instance" is any variable
  assignment satisfying every constraint added to the model
  (`ModelFeasible`); solver statuses OPTIMAL and FEASIBLE both only
  guarantee such an assignment.
* Python iterates `set(range(n))` and `set(hotel_indices)` (small
  non-negative ints) in ascending order; the reconstruction scans model
  this as ascending `Fin` order.
-/

/-- A caller-supplied place record (a Python dict).  `name`, `lat`, `lon`,
`duration` and `is_hotel` are the keys read by `solve_itinerary`;
a missing key is `none`. -/
structure RawPlace where
  name : Option String
  lat : Option ℚ
  lon : Option ℚ
  duration : Option ℚ
  is_hotel : Option Bool
deriving DecidableEq, Repr

/-- An entry of `cleaned_places` (optimiser.py lines 53-59). -/
structure CleanedPlace where
  name : String
  lat : Option ℚ
  lon : Option ℚ
  duration : ℚ
  is_hotel : Bool
deriving DecidableEq, Repr

/-- Cleaning of one record (optimiser.py lines 50-61): kept iff it has a
non-empty name; `duration` is `p.get("duration", 0)` unless the record's
own `is_hotel` field is truthy (then 0); `is_hotel` is membership of the
record in the `potential_hotels` list (`p in potential_hotels`). -/
def cleanPlace (potential_hotels : List RawPlace) (p : RawPlace) : Option CleanedPlace :=
  match p.name with
  | none => none
  | some s =>
    if s = "" then none
    else some
      { name := s
        lat := p.lat
        lon := p.lon
        duration := if p.is_hotel.getD false then 0 else p.duration.getD 0
        is_hotel := decide (p ∈ potential_hotels) }

/-- `cleaned_places` (optimiser.py lines 46-61): hotels first, then
attractions, nameless records dropped. -/
def cleaned_places (potential_hotels potential_attractions : List RawPlace) :
    List CleanedPlace :=
  (potential_hotels ++ potential_attractions).filterMap (cleanPlace potential_hotels)

/-- `place_to_index` (optimiser.py line 75): dict comprehension, so a later
place with the same name overwrites an earlier one. -/
def place_to_index (cleaned : List CleanedPlace) (s : String) : Option ℕ :=
  ((cleaned.enum.filter (fun e => decide (e.2.name = s))).getLast?).map (·.1)

/-- `hotel_indices` (optimiser.py lines 78-83). -/
def hotel_indices (potential_hotels potential_attractions : List RawPlace) : List ℕ :=
  potential_hotels.filterMap
    (fun p => p.name.bind (place_to_index (cleaned_places potential_hotels potential_attractions)))

/-- `attraction_indices` (optimiser.py lines 85-90). -/
def attraction_indices (potential_hotels potential_attractions : List RawPlace) : List ℕ :=
  potential_attractions.filterMap
    (fun p => p.name.bind (place_to_index (cleaned_places potential_hotels potential_attractions)))

/-- The data handed to `run_optimize` (optimiser.py lines 122-134, 242-258),
after the sets `N`, `H`, `A`, `K` are formed. -/
structure MInstance where
  n : ℕ
  H : Finset (Fin n)
  A : Finset (Fin n)
  visitingTime : Fin n → ℚ
  d : Fin n → Fin n → ℚ
  t : Fin n → Fin n → ℚ
  day : ℕ
  Tmax : ℚ
  flexible : Bool

/-- A full assignment of the model's decision variables
(optimiser.py lines 262-271). -/
structure Assignment (n day : ℕ) where
  x : Fin n → Fin n → Fin day → ℚ
  y : Fin n → Fin day → ℚ
  u : Fin n → Fin day → ℤ
  slack : Fin day → ℚ
  Z : Fin day → ℚ
  T : Fin day → ℚ
  Tavg : ℚ

/-- Variable domains: `x`, `y` BINARY; `u` INTEGER in `[0, n-1]`;
`slack`, `Z`, `T`, `T_avg` continuous with the python-mip default lower
bound `0` (optimiser.py lines 263-271). -/
def varBounds (I : MInstance) (a : Assignment I.n I.day) : Prop :=
  (∀ i j k, a.x i j k = 0 ∨ a.x i j k = 1) ∧
  (∀ i k, a.y i k = 0 ∨ a.y i k = 1) ∧
  (∀ i k, 0 ≤ a.u i k ∧ a.u i k ≤ (I.n : ℤ) - 1) ∧
  (∀ k, 0 ≤ a.slack k) ∧
  (∀ k, 0 ≤ a.Z k) ∧
  (∀ k, 0 ≤ a.T k) ∧
  0 ≤ a.Tavg

/-- Constraint (2), attraction in-degree over the whole trip
(optimiser.py lines 343-348): `== 1` in flexible mode, `>= 0` and `<= 1`
in strict mode. -/
def constr2 (I : MInstance) (a : Assignment I.n I.day) : Prop :=
  ∀ j, j ∈ I.A →
    (I.flexible = true → (∑ k, ∑ i ∈ Finset.univ.erase j, a.x i j k) = 1) ∧
    (I.flexible = false →
      0 ≤ (∑ k, ∑ i ∈ Finset.univ.erase j, a.x i j k) ∧
      (∑ k, ∑ i ∈ Finset.univ.erase j, a.x i j k) ≤ 1)

/-- Constraint (3), attraction out-degree over the whole trip
(optimiser.py lines 352-357). -/
def constr3 (I : MInstance) (a : Assignment I.n I.day) : Prop :=
  ∀ i, i ∈ I.A →
    (I.flexible = true → (∑ k, ∑ j ∈ Finset.univ.erase i, a.x i j k) = 1) ∧
    (I.flexible = false →
      0 ≤ (∑ k, ∑ j ∈ Finset.univ.erase i, a.x i j k) ∧
      (∑ k, ∑ j ∈ Finset.univ.erase i, a.x i j k) ≤ 1)

/-- Constraint (4): exactly one hotel departure per day, in both modes
(optimiser.py lines 360-361). -/
def constr4 (I : MInstance) (a : Assignment I.n I.day) : Prop :=
  ∀ k, (∑ q ∈ I.H, ∑ j ∈ I.A.erase q, a.x q j k) = 1

/-- Constraint (5): exactly one hotel return per day, in both modes
(optimiser.py lines 364-365). -/
def constr5 (I : MInstance) (a : Assignment I.n I.day) : Prop :=
  ∀ k, (∑ q ∈ I.H, ∑ i ∈ I.A.erase q, a.x i q k) = 1

/-- Constraint (6): per-day flow conservation at attractions
(optimiser.py lines 368-371). -/
def constr6 (I : MInstance) (a : Assignment I.n I.day) : Prop :=
  ∀ k, ∀ i, i ∈ I.A →
    (∑ j ∈ Finset.univ.erase i, a.x i j k) = a.y i k ∧
    (∑ j ∈ Finset.univ.erase i, a.x j i k) = a.y i k

/-- Constraint (7): MTZ subtour elimination over attraction pairs
(optimiser.py lines 374-378). -/
def constr7 (I : MInstance) (a : Assignment I.n I.day) : Prop :=
  ∀ k, ∀ i, i ∈ I.A → ∀ j, j ∈ I.A → i ≠ j →
    (a.u i k : ℚ) - (a.u j k : ℚ) + (I.n : ℚ) * a.x i j k ≤ (I.n : ℚ) - 1

/-- Constraint (8): hotel order markers fixed to 0 (optimiser.py 382-384). -/
def constr8 (I : MInstance) (a : Assignment I.n I.day) : Prop :=
  ∀ k, ∀ q, q ∈ I.H → a.u q k = 0

/-- Constraint (9): attraction order markers between `y` and `(n-1)·y`
(optimiser.py lines 387-390). -/
def constr9 (I : MInstance) (a : Assignment I.n I.day) : Prop :=
  ∀ k, ∀ i, i ∈ I.A →
    a.y i k ≤ (a.u i k : ℚ) ∧ (a.u i k : ℚ) ≤ ((I.n : ℚ) - 1) * a.y i k

/-- Travel-time term of a day (optimiser.py line 394). -/
def travelTime (I : MInstance) (a : Assignment I.n I.day) (k : Fin I.day) : ℚ :=
  ∑ i, ∑ j ∈ Finset.univ.erase i, I.t i j * a.x i j k

/-- Visit-time term of the daily budget constraint, computed from in-arcs
(optimiser.py line 395). -/
def visitTimeArcs (I : MInstance) (a : Assignment I.n I.day) (k : Fin I.day) : ℚ :=
  ∑ j, I.visitingTime j * ∑ i ∈ Finset.univ.erase j, a.x i j k

/-- Constraint (10): daily time budget, hard ceiling in strict mode, slack
in flexible mode (optimiser.py lines 393-400). -/
def constr10 (I : MInstance) (a : Assignment I.n I.day) : Prop :=
  ∀ k,
    (I.flexible = true → travelTime I a k + visitTimeArcs I a k ≤ I.Tmax + a.slack k) ∧
    (I.flexible = false → travelTime I a k + visitTimeArcs I a k ≤ I.Tmax)

/-- Constraint (11): day-total definition via `y` (optimiser.py 403-410). -/
def constr11 (I : MInstance) (a : Assignment I.n I.day) : Prop :=
  ∀ k, a.T k = travelTime I a k + ∑ j, I.visitingTime j * a.y j k

/-- Constraint (12): daily average (optimiser.py line 413). -/
def constr12 (I : MInstance) (a : Assignment I.n I.day) : Prop :=
  a.Tavg = (∑ k, a.T k) / (I.day : ℚ)

/-- Constraint (13): `Z` dominates the absolute deviation
(optimiser.py lines 416-418). -/
def constr13 (I : MInstance) (a : Assignment I.n I.day) : Prop :=
  ∀ k, a.T k - a.Tavg ≤ a.Z k ∧ a.Tavg - a.T k ≤ a.Z k

/-- Constraint (16): hotel continuity, the departure of day `k ≥ 1` equals
the return of day `k-1`, per hotel (optimiser.py lines 423-425). -/
def constr16 (I : MInstance) (a : Assignment I.n I.day) : Prop :=
  ∀ k : Fin I.day, 0 < k.val → ∀ q, q ∈ I.H →
    (∑ j ∈ I.A, a.x q j k) =
      ∑ i ∈ I.A, a.x i q ⟨k.val - 1, Nat.lt_of_le_of_lt (Nat.sub_le k.val 1) k.isLt⟩

/-- Constraint (17): on day 0 the departure hotel equals the return hotel
(optimiser.py lines 428-429). -/
def constr17 (I : MInstance) (a : Assignment I.n I.day) : Prop :=
  ∀ k : Fin I.day, k.val = 0 → ∀ q, q ∈ I.H →
    (∑ j ∈ I.A, a.x q j k) - (∑ i ∈ I.A, a.x i q k) = 0

/-- Constraint (18): no hotel-to-hotel arcs (optimiser.py lines 432-436). -/
def constr18 (I : MInstance) (a : Assignment I.n I.day) : Prop :=
  ∀ k, ∀ q, q ∈ I.H → ∀ r, r ∈ I.H → q ≠ r → a.x q r k = 0

/-- A variable assignment satisfying every constraint `run_optimize` adds
to the model: exactly what solver statuses OPTIMAL / FEASIBLE guarantee. -/
def ModelFeasible (I : MInstance) (a : Assignment I.n I.day) : Prop :=
  varBounds I a ∧ constr2 I a ∧ constr3 I a ∧ constr4 I a ∧ constr5 I a ∧
  constr6 I a ∧ constr7 I a ∧ constr8 I a ∧ constr9 I a ∧ constr10 I a ∧
  constr11 I a ∧ constr12 I a ∧ constr13 I a ∧ constr16 I a ∧ constr17 I a ∧
  constr18 I a

instance (I : MInstance) (a : Assignment I.n I.day) : Decidable (varBounds I a) := by
  unfold varBounds; exact inferInstance

instance (I : MInstance) (a : Assignment I.n I.day) : Decidable (constr2 I a) := by
  unfold constr2; exact inferInstance

instance (I : MInstance) (a : Assignment I.n I.day) : Decidable (constr3 I a) := by
  unfold constr3; exact inferInstance

instance (I : MInstance) (a : Assignment I.n I.day) : Decidable (constr4 I a) := by
  unfold constr4; exact inferInstance

instance (I : MInstance) (a : Assignment I.n I.day) : Decidable (constr5 I a) := by
  unfold constr5; exact inferInstance

instance (I : MInstance) (a : Assignment I.n I.day) : Decidable (constr6 I a) := by
  unfold constr6; exact inferInstance

instance (I : MInstance) (a : Assignment I.n I.day) : Decidable (constr7 I a) := by
  unfold constr7; exact inferInstance

instance (I : MInstance) (a : Assignment I.n I.day) : Decidable (constr8 I a) := by
  unfold constr8; exact inferInstance

instance (I : MInstance) (a : Assignment I.n I.day) : Decidable (constr9 I a) := by
  unfold constr9; exact inferInstance

instance (I : MInstance) (a : Assignment I.n I.day) : Decidable (constr10 I a) := by
  unfold constr10; exact inferInstance

instance (I : MInstance) (a : Assignment I.n I.day) : Decidable (constr11 I a) := by
  unfold constr11; exact inferInstance

instance (I : MInstance) (a : Assignment I.n I.day) : Decidable (constr12 I a) := by
  unfold constr12; exact inferInstance

instance (I : MInstance) (a : Assignment I.n I.day) : Decidable (constr13 I a) := by
  unfold constr13; exact inferInstance

instance (I : MInstance) (a : Assignment I.n I.day) : Decidable (constr16 I a) := by
  unfold constr16; exact inferInstance

instance (I : MInstance) (a : Assignment I.n I.day) : Decidable (constr17 I a) := by
  unfold constr17; exact inferInstance

instance (I : MInstance) (a : Assignment I.n I.day) : Decidable (constr18 I a) := by
  unfold constr18; exact inferInstance

instance (I : MInstance) (a : Assignment I.n I.day) : Decidable (ModelFeasible I a) := by
  unfold ModelFeasible; exact inferInstance

/-- The model admits some feasible assignment (solver can return a plan). -/
def ModelIsFeasible (I : MInstance) : Prop :=
  ∃ a : Assignment I.n I.day, ModelFeasible I a

/-- The off-diagonal entries of row `i` of the distance matrix
(optimiser.py line 290). -/
def row_values (I : MInstance) (i : Fin I.n) : List ℚ :=
  ((List.finRange I.n).filter (fun j => decide (j ≠ i))).map (fun j => I.d i j)

/-- `min_d`, the sum of the off-diagonal row minima (optimiser.py 287-294).
For `n = 1` the Python `min`/`max` of an empty list raises; that case is
modelled by `buildChecks`. -/
def min_d (I : MInstance) : ℚ :=
  ∑ i, ((row_values I i).min?).getD 0

/-- `max_d`, the sum of the off-diagonal row maxima (optimiser.py 287-294). -/
def max_d (I : MInstance) : ℚ :=
  ∑ i, ((row_values I i).max?).getD 0

/-- The denominator of the distance normalization (optimiser.py line 318). -/
def distDenominator (I : MInstance) : ℚ := max_d I - min_d I

/-- The distance objective `Σ_k Σ_{i≠j} d[i][j]·x[i][j][k]`
(optimiser.py line 275). -/
def objectiveDist (I : MInstance) (a : Assignment I.n I.day) : ℚ :=
  ∑ k, ∑ i, ∑ j ∈ Finset.univ.erase i, I.d i j * a.x i j k

/-- The min-max normalized distance component (optimiser.py line 318);
`none` models the ZeroDivisionError raised when `max_d = min_d`. -/
def normalizationDist (I : MInstance) (a : Assignment I.n I.day) : Option ℚ :=
  if distDenominator I = 0 then none
  else some ((objectiveDist I a - min_d I) / distDenominator I)

/-- The omission-penalty objective `Σ_{i∈A} (1 - Σ_k y[i][k])`
(optimiser.py line 284). -/
def objectivePenalty (I : MInstance) (a : Assignment I.n I.day) : ℚ :=
  ∑ i ∈ I.A, (1 - ∑ k, a.y i k)

/-- The normalized penalty component (optimiser.py lines 313-315, 321):
denominator `len(A)`. -/
def normalizationPenalty (I : MInstance) (a : Assignment I.n I.day) : ℚ :=
  objectivePenalty I a / (I.A.card : ℚ)

/-- The exceptions `run_optimize` can raise while computing the objective
bounds and normalizations, in source order (optimiser.py lines 287-321):
`max([])` for `n = 1`; division by `max_d - min_d = 0` (line 318);
division by `T_max·|K| = 0` (lines 319-320); division by `|A| = 0`
(line 321).  `none` means the call raises before the solver is invoked. -/
def buildChecks (I : MInstance) : Option Unit :=
  if I.n = 1 then none
  else if distDenominator I = 0 then none
  else if I.Tmax * (I.day : ℚ) = 0 then none
  else if (I.A.card : ℚ) = 0 then none
  else some ()

/-- The `objective_weights` dict handed to `solve_itinerary`
(a missing key is `none`). -/
structure ObjectiveWeights where
  distance_weight : Option ℚ
  time_balance_weight : Option ℚ
deriving DecidableEq

/-- Python `v or 0.5` (optimiser.py lines 251-252): `None` and the falsy
value `0` are both replaced by `0.5`. -/
def pyOrHalf (v : Option ℚ) : ℚ :=
  match v with
  | none => 1/2
  | some a => if a = 0 then 1/2 else a

/-- The weight `alpha` actually used in the blended objective
(optimiser.py line 251 with line 132). -/
def alphaUsed (w : ObjectiveWeights) : ℚ := pyOrHalf w.distance_weight

/-- The weight `beta` actually used in the blended objective
(optimiser.py line 252 with line 133). -/
def betaUsed (w : ObjectiveWeights) : ℚ := pyOrHalf w.time_balance_weight

/-- The instance `run_optimize` receives from `solve_itinerary`
(optimiser.py lines 122-137 and 242-258): indices over the cleaned place
table, hotel/attraction index sets built as Python sets, visit durations
from the cleaned records, and the externally supplied travel matrices. -/
def buildInstance (potential_hotels potential_attractions : List RawPlace)
    (dmat tmat : ℕ → ℕ → ℚ) (days : ℕ) (maxH : ℚ) (flex : Bool) : MInstance :=
  let cleaned := cleaned_places potential_hotels potential_attractions
  { n := cleaned.length
    H := Finset.univ.filter
      (fun i : Fin cleaned.length =>
        (i : ℕ) ∈ hotel_indices potential_hotels potential_attractions)
    A := Finset.univ.filter
      (fun i : Fin cleaned.length =>
        (i : ℕ) ∈ attraction_indices potential_hotels potential_attractions)
    visitingTime := fun i => (cleaned.get i).duration
    d := fun i j => dmat i j
    t := fun i j => tmat i j
    day := days
    Tmax := maxH
    flexible := flex }

/-!  Route reconstruction (optimiser.py lines 489-525). -/

/-- The scan predicate of the walk: `j != current and x[current][j][k].x > 0.5`
(optimiser.py line 513). -/
def arcPred {n : ℕ} (xk : Fin n → Fin n → ℚ) (c j : Fin n) : Bool :=
  decide (j ≠ c ∧ 1/2 < xk c j)

/-- The first `j` (ascending index order, Python `for j in N`) with a
selected arc out of `c`, if any. -/
def firstArc {n : ℕ} (xk : Fin n → Fin n → ℚ) (c : Fin n) : Option (Fin n) :=
  (List.finRange n).find? (arcPred xk c)

/-- Whether some arc leaves `q` (inner loop of optimiser.py lines 491-497). -/
def hasOutArc {n : ℕ} (xk : Fin n → Fin n → ℚ) (q : Fin n) : Bool :=
  (List.finRange n).any (arcPred xk q)

/-- `start_hotel`: the first hotel with an outgoing selected arc
(optimiser.py lines 490-497). -/
def findStartHotel {n : ℕ} (xk : Fin n → Fin n → ℚ) (H : Finset (Fin n)) :
    Option (Fin n) :=
  (List.finRange n).find? (fun q => decide (q ∈ H) && hasOutArc xk q)

/-- The `while True` walk of optimiser.py lines 508-523, with explicit fuel:
`none` means the Python loop has not finished within `fuel` iterations.
Each iteration appends the first selected arc out of `current`, stops if it
re-enters the starting hotel, otherwise advances; if no arc leaves
`current`, it stops with the route built so far.  (The Python `visited`
set is assigned but never read, so it imposes no stopping condition.) -/
def walkAux {n : ℕ} (xk : Fin n → Fin n → ℚ) (H : Finset (Fin n)) (q : Fin n) :
    ℕ → Fin n → List (Fin n × Fin n) → Option (List (Fin n × Fin n))
  | 0, _, _ => none
  | fuel+1, c, acc =>
    match firstArc xk c with
    | none => some acc
    | some j =>
      if j ∈ H ∧ j = q then some (acc ++ [(c, j)])
      else walkAux xk H q fuel j (acc ++ [(c, j)])

/-- The Python walk terminates (for some fuel the loop finishes). -/
def WalkTerminates {n : ℕ} (xk : Fin n → Fin n → ℚ) (H : Finset (Fin n))
    (q : Fin n) : Prop :=
  ∃ fuel, (walkAux xk H q fuel q []).isSome

/-- The arc values of day `k`. -/
def xOnDay (I : MInstance) (a : Assignment I.n I.day) (k : Fin I.day) :
    Fin I.n → Fin I.n → ℚ :=
  fun i j => a.x i j k

/-- The reconstructed route of day `k` (optimiser.py lines 489-525): empty
when no hotel has an outgoing arc; otherwise the walk from the starting
hotel.  Fuel `n + 1` is enough for every assignment on which the Python
loop terminates at all within the feasible region (proved below). -/
def reconstructDay (I : MInstance) (a : Assignment I.n I.day) (k : Fin I.day) :
    List (Fin I.n × Fin I.n) :=
  match findStartHotel (xOnDay I a k) I.H with
  | none => []
  | some q => (walkAux (xOnDay I a k) I.H q (I.n + 1) q []).getD []

/-!  The `solve_itinerary` wrapper (optimiser.py lines 5-191). -/

/-- The fields of the `results` dict used by the itinerary assembly
(optimiser.py lines 442-452). -/
structure PyResults where
  total_distance : ℚ
  daily_routes : List (List (ℕ × ℕ))
  daily_total_time_spent : List ℚ
deriving DecidableEq

/-- The `results` dict as returned when the solver reports no solution
(optimiser.py lines 442-452 and 542-545): all defaults. -/
def infeasibleResults : PyResults :=
  { total_distance := 0, daily_routes := [], daily_total_time_spent := [] }

/-- `all_places_name` (optimiser.py line 72). -/
def all_places_name (potential_hotels potential_attractions : List RawPlace) :
    List String :=
  (cleaned_places potential_hotels potential_attractions).map (·.name)

/-- Name lookup over the combined input list (optimiser.py lines 171, 175):
first record whose `name` equals the given string. -/
def lookupPlace (potential_hotels potential_attractions : List RawPlace)
    (nm : String) : Option RawPlace :=
  (potential_hotels ++ potential_attractions).find? (fun p => decide (p.name = some nm))

/-- One day of `route_plan` (optimiser.py lines 164-180).  An empty route
becomes the marker entry (Python appends the string literal, modelled as
`none`); otherwise the starting place followed by each arc target, records
resolved by name and silently skipped when not found. -/
def dayRoutePlan (potential_hotels potential_attractions : List RawPlace)
    (route : List (ℕ × ℕ)) : List (Option RawPlace) :=
  match route with
  | [] => [none]
  | (i0, _) :: _ =>
    let names := all_places_name potential_hotels potential_attractions
    let start := (names.get? i0).bind (lookupPlace potential_hotels potential_attractions)
    (match start with | some p => [some p] | none => []) ++
      route.filterMap
        (fun ij => ((names.get? ij.2).bind
          (lookupPlace potential_hotels potential_attractions)).map some)

/-- The output record (optimiser.py lines 182-188).  The 2-decimal rounding
of the reported totals is omitted: every value reached by a theorem below
is a fixed point of that rounding. -/
structure Itinerary where
  title : String
  total_distance : ℚ
  total_time : ℚ
  daily_routes : List (List (Option RawPlace))
deriving DecidableEq

/-- Assembly of the single returned itinerary (optimiser.py lines 139-191). -/
def assembleItinerary (potential_hotels potential_attractions : List RawPlace)
    (r : PyResults) : Itinerary :=
  { title := "Optimized Route"
    total_distance := r.total_distance
    total_time := r.daily_total_time_spent.sum
    daily_routes := r.daily_routes.map (dayRoutePlan potential_hotels potential_attractions) }

/-- `solve_itinerary` (optimiser.py lines 5-191), with the two external
effects as parameters: the travel matrices (Geoapify) and the `results`
dict produced by the solver run.  The outcome is `some []` on the
empty-cleaned-places early return (line 65-67), `none` when building the
normalized objective raises (so the solver is never invoked), and
otherwise the singleton itinerary list of lines 182-191. -/
def solve_itinerary (potential_hotels potential_attractions : List RawPlace)
    (dmat tmat : ℕ → ℕ → ℚ) (days : ℕ) (maxH : ℚ) (flex : Bool)
    (solved : PyResults) : Option (List Itinerary) :=
  if cleaned_places potential_hotels potential_attractions = [] then some []
  else if buildChecks (buildInstance potential_hotels potential_attractions
      dmat tmat days maxH flex) = none then none
  else some [assembleItinerary potential_hotels potential_attractions solved]

/-- Whether the call reaches `model.optimize()` (optimiser.py line 454):
it must survive the early return and the objective-building divisions. -/
def solverInvoked (potential_hotels potential_attractions : List RawPlace)
    (dmat tmat : ℕ → ℕ → ℚ) (days : ℕ) (maxH : ℚ) (flex : Bool) : Prop :=
  cleaned_places potential_hotels potential_attractions ≠ [] ∧
  buildChecks (buildInstance potential_hotels potential_attractions
    dmat tmat days maxH flex) ≠ none

/-! Concrete data used by the claim theorems. -/

/-- Scenario-A-like instance: one hotel (index 0), two attractions with
durations 1h and 2h, one day, `T_max = 10`, flexible mode. -/
def I3 : MInstance :=
  { n := 3, H := {0}, A := {1, 2}, visitingTime := ![0, 1, 2]
    d := fun i j => if i = j then 0 else 1, t := fun _ _ => 0
    day := 1, Tmax := 10, flexible := true }

/-- A feasible assignment for `I3`: the tour 0 → 1 → 2 → 0. -/
def A3 : Assignment 3 1 :=
  { x := fun i j _ => ![![0, 1, 0], ![0, 0, 1], ![1, 0, 0]] i j
    y := fun i _ => ![0, 1, 1] i
    u := fun i _ => ![0, 1, 2] i
    slack := fun _ => 0, Z := fun _ => 0, T := fun _ => 3, Tavg := 3 }

/-- Two hotels (0, 1), two attractions (2, 3), two days, flexible. -/
def I4 : MInstance :=
  { n := 4, H := {0, 1}, A := {2, 3}, visitingTime := ![0, 0, 1, 2]
    d := fun i j => if i = j then 0 else 1, t := fun _ _ => 0
    day := 2, Tmax := 10, flexible := true }

/-- A feasible assignment for `I4`: day 0 tours 0 → 2 → 0; day 1 departs
hotel 0 (as continuity demands) but returns to the other hotel,
0 → 3 → 1. -/
def A4 : Assignment 4 2 :=
  { x := fun i j k =>
      if k.val = 0 then ![![0, 0, 1, 0], ![0, 0, 0, 0], ![1, 0, 0, 0], ![0, 0, 0, 0]] i j
      else ![![0, 0, 0, 1], ![0, 0, 0, 0], ![0, 0, 0, 0], ![0, 1, 0, 0]] i j
    y := fun i k => if k.val = 0 then ![0, 0, 1, 0] i else ![0, 0, 0, 1] i
    u := fun i k => if k.val = 0 then ![0, 0, 1, 0] i else ![0, 0, 0, 1] i
    slack := fun _ => 0, Z := fun _ => 1/2
    T := fun k => if k.val = 0 then 1 else 2, Tavg := 3/2 }

/-- Strict-mode instance whose distance matrix makes `min_d` larger than a
feasible selected-arc total: `d = [[0,1,5],[1,0,5],[5,5,0]]`. -/
def I8 : MInstance :=
  { n := 3, H := {0}, A := {1, 2}, visitingTime := ![0, 1, 2]
    d := fun i j => ![![0, 1, 5], ![1, 0, 5], ![5, 5, 0]] i j, t := fun _ _ => 0
    day := 1, Tmax := 10, flexible := false }

/-- A feasible strict-mode assignment for `I8` visiting only attraction 1
(attraction 2 dropped): the tour 0 → 1 → 0. -/
def A8 : Assignment 3 1 :=
  { x := fun i j _ => ![![0, 1, 0], ![1, 0, 0], ![0, 0, 0]] i j
    y := fun i _ => ![0, 1, 0] i
    u := fun i _ => ![0, 1, 0] i
    slack := fun _ => 0, Z := fun _ => 0, T := fun _ => 1, Tavg := 1 }


/-- A hotel record whose own `is_hotel` key is absent and which carries a
nonzero duration. -/
def hotelDur5 : RawPlace :=
  { name := some "H", lat := none, lon := none, duration := some 5, is_hotel := none }

/-- Two well-formed hotel records (no attractions scenario). -/
def hG : RawPlace :=
  { name := some "G", lat := some 13, lon := some 100, duration := none, is_hotel := some true }

/-- Second hotel record. -/
def hK : RawPlace :=
  { name := some "K", lat := some 14, lon := some 101, duration := none, is_hotel := some true }

/-- Scenario-B hotel. -/
def hB : RawPlace :=
  { name := some "B", lat := some 13, lon := some 100, duration := none, is_hotel := some true }

/-- Scenario-B attraction, 1h duration. -/
def pB1 : RawPlace :=
  { name := some "P", lat := some 13, lon := some 100, duration := some 1, is_hotel := some false }

/-- Scenario-B attraction, 2h duration. -/
def pB2 : RawPlace :=
  { name := some "Q", lat := some 14, lon := some 101, duration := some 2, is_hotel := some false }

/-- Scenario-B distance matrix: 1 km between the hotel and the first
attraction, 5 km elsewhere off the diagonal. -/
def dB : ℕ → ℕ → ℚ := fun i j => if i = j then 0 else if i + j = 1 then 1 else 5

/-- Scenario-B travel-time matrix: 1 hour off the diagonal. -/
def tB : ℕ → ℕ → ℚ := fun i j => if i = j then 0 else 1

/-- Scenario B: strict mode, `max_daily_hours = 1/2`, below every
hotel-attraction leg. -/
def scenB : MInstance := buildInstance [hB] [pB1, pB2] dB tB 1 (1/2) false

/-- Scenario B with an even smaller budget `1/4`. -/
def scenB4 : MInstance := buildInstance [hB] [pB1, pB2] dB tB 1 (1/4) false

/-- Attraction records for the hotel-less scenario. -/
def pC1 : RawPlace :=
  { name := some "A", lat := some 13, lon := some 100, duration := some 1, is_hotel := some false }

/-- Second attraction record. -/
def pC2 : RawPlace :=
  { name := some "C", lat := some 14, lon := some 101, duration := some 1, is_hotel := some false }

/-- Third attraction record. -/
def pC3 : RawPlace :=
  { name := some "D", lat := some 15, lon := some 102, duration := some 1, is_hotel := some false }

/-- Distance matrix for the hotel-less scenario, chosen so the objective
normalizations do not raise: rows have distinct off-diagonal min and max. -/
def d6 : ℕ → ℕ → ℚ :=
  fun i j => if i = j then 0 else if i + j = 1 then 1 else if i + j = 2 then 2 else 3

/-- Travel-time matrix for the hotel-less scenario. -/
def t6 : ℕ → ℕ → ℚ := fun i j => if i = j then 0 else 1

/-- Hotel-less call: 0 hotels, 3 attractions, strict mode. -/
def c6inst : MInstance := buildInstance [] [pC1, pC2, pC3] d6 t6 1 10 false

/-- Hotel-less call with two days, flexible mode. -/
def c6winst : MInstance := buildInstance [] [pC1, pC2, pC3] d6 t6 2 5 true

/-- One-hotel record for the `n = 2` scenario. -/
def h10 : RawPlace :=
  { name := some "H", lat := some 13, lon := some 100, duration := none, is_hotel := some true }

/-- One-attraction record for the `n = 2` scenario. -/
def a10 : RawPlace :=
  { name := some "P", lat := some 13, lon := some 100, duration := some 2, is_hotel := some false }

/-- Distance matrix with 3 km between the two places. -/
def d10 : ℕ → ℕ → ℚ := fun i j => if i = j then 0 else 3

/-- Travel-time matrix, 15 minutes between the two places. -/
def t10 : ℕ → ℕ → ℚ := fun i j => if i = j then 0 else 1/4

/-- The instance of the 1-hotel 1-attraction call. -/
def I10 : MInstance := buildInstance [h10] [a10] d10 t10 1 10 true

/-- Arc values containing a closed loop 1 → 2 → 1 that excludes the
starting hotel 0: `x[0][1] = x[1][2] = x[2][1] = 1`. -/
def x9 : Fin 3 → Fin 3 → ℚ :=
  fun i j => ![![0, 1, 0], ![0, 0, 1], ![0, 1, 0]] i j

/-- Hotel set of the looping example. -/
def H9 : Finset (Fin 3) := {0}

/-! Shared helper lemmas. -/

/-- A binary value is non-negative. -/
lemma binNonneg {v : ℚ} (h : v = 0 ∨ v = 1) : 0 ≤ v := by
  rcases h with h | h <;> simp [h]

/-- A binary value is at most one. -/
lemma binLeOne {v : ℚ} (h : v = 0 ∨ v = 1) : v ≤ 1 := by
  rcases h with h | h <;> simp [h]

/-- A nonzero binary value is one. -/
lemma binEqOne {v : ℚ} (h : v = 0 ∨ v = 1) (hv : v ≠ 0) : v = 1 := by
  rcases h with h | h
  · exact absurd h hv
  · exact h

/-- For a binary value, the reconstruction threshold `1/2 < v` means `v = 1`. -/
lemma binHalf {v : ℚ} (h : v = 0 ∨ v = 1) : 1/2 < v ↔ v = 1 := by
  rcases h with h | h <;> subst h <;> norm_num

/-- A doubly indexed sum of binary values equal to 1 has a term equal to 1. -/
lemma exists_one_of_nested_sum {α β : Type*} {s : Finset α} {g : α → Finset β}
    {f : α → β → ℚ} (hbin : ∀ p ∈ s, ∀ b ∈ g p, f p b = 0 ∨ f p b = 1)
    (hsum : (∑ p ∈ s, ∑ b ∈ g p, f p b) = 1) :
    ∃ p ∈ s, ∃ b ∈ g p, f p b = 1 := by
  by_contra hc
  push_neg at hc
  have hz : ∀ p ∈ s, (∑ b ∈ g p, f p b) = 0 := by
    intro p hp
    refine Finset.sum_eq_zero (fun b hb => ?_)
    rcases hbin p hp b hb with h | h
    · exact h
    · exact absurd h (hc p hp b hb)
  rw [Finset.sum_eq_zero hz] at hsum
  norm_num at hsum

/-- A doubly indexed sum of non-negative values dominates any single term. -/
lemma nested_sum_ge_term {α β : Type*} {s : Finset α} {g : α → Finset β}
    {f : α → β → ℚ} (hpos : ∀ p ∈ s, ∀ b ∈ g p, 0 ≤ f p b)
    {p : α} {b : β} (hp : p ∈ s) (hb : b ∈ g p) :
    f p b ≤ ∑ p ∈ s, ∑ b ∈ g p, f p b := by
  refine le_trans (Finset.single_le_sum (hpos p hp) hb) ?_
  exact Finset.single_le_sum (fun q hq => Finset.sum_nonneg (hpos q hq)) hp

/-- A doubly indexed sum of non-negative values dominates the sum of two
terms taken from distinct outer indices. -/
lemma nested_sum_ge_two_terms {α β : Type*} [DecidableEq α] {s : Finset α}
    {g : α → Finset β} {f : α → β → ℚ}
    (hpos : ∀ p ∈ s, ∀ b ∈ g p, 0 ≤ f p b)
    {p1 p2 : α} {b1 : β} {b2 : β} (hne : p1 ≠ p2)
    (h1 : p1 ∈ s) (h2 : p2 ∈ s) (hb1 : b1 ∈ g p1) (hb2 : b2 ∈ g p2) :
    f p1 b1 + f p2 b2 ≤ ∑ p ∈ s, ∑ b ∈ g p, f p b := by
  have e1 : f p1 b1 ≤ ∑ b ∈ g p1, f p1 b := Finset.single_le_sum (hpos p1 h1) hb1
  have e2 : f p2 b2 ≤ ∑ b ∈ g p2, f p2 b := Finset.single_le_sum (hpos p2 h2) hb2
  have h2e : p2 ∈ s.erase p1 := Finset.mem_erase.mpr ⟨hne.symm, h2⟩
  have e3 : (∑ b ∈ g p2, f p2 b) ≤ ∑ p ∈ s.erase p1, ∑ b ∈ g p, f p b :=
    Finset.single_le_sum (fun q hq => Finset.sum_nonneg (hpos q (Finset.mem_of_mem_erase hq))) h2e
  have e4 : (∑ p ∈ s.erase p1, ∑ b ∈ g p, f p b) + ∑ b ∈ g p1, f p1 b = ∑ p ∈ s, ∑ b ∈ g p, f p b :=
    Finset.sum_erase_add s _ h1
  linarith

/-- In strict mode, a daily budget below every hotel-attraction leg time
makes the model infeasible: constraint (4) still forces a hotel departure
each day, and constraint (10) caps the day at `T_max`. -/
lemma strict_budget_infeasible (I : MInstance) (hflex : I.flexible = false)
    (hday : 0 < I.day) (ht : ∀ i j, 0 ≤ I.t i j) (hv : ∀ i, 0 ≤ I.visitingTime i)
    (hbudget : ∀ q ∈ I.H, ∀ j ∈ I.A.erase q, I.Tmax < I.t q j) :
    ¬ ModelIsFeasible I := by
  rintro ⟨a, hfeas⟩
  obtain ⟨hvb, _, _, hc4, _, _, _, _, _, hc10, _⟩ := hfeas
  obtain ⟨hxbin, _⟩ := hvb
  set k0 : Fin I.day := ⟨0, hday⟩
  obtain ⟨q, hq, j, hj, hx1⟩ :=
    exists_one_of_nested_sum (fun p _ b _ => hxbin p b k0) (hc4 k0)
  have hjq : j ≠ q := (Finset.mem_erase.mp hj).1
  have hterm : I.t q j ≤ travelTime I a k0 := by
    have : I.t q j * a.x q j k0 ≤ travelTime I a k0 := by
      refine nested_sum_ge_term
        (fun p _ b _ => mul_nonneg (ht p b) (binNonneg (hxbin p b k0)))
        (Finset.mem_univ q) ?_
      exact Finset.mem_erase.mpr ⟨hjq, Finset.mem_univ j⟩
    rw [hx1, mul_one] at this
    exact this
  have hvisit : 0 ≤ visitTimeArcs I a k0 := by
    refine Finset.sum_nonneg (fun p _ => ?_)
    refine mul_nonneg (hv p) (Finset.sum_nonneg (fun b _ => binNonneg (hxbin b p k0)))
  have hcap := (hc10 k0).2 hflex
  have hlt := hbudget q hq j hj
  linarith

/-- With an empty hotel set and at least one day, constraint (4) is the
unsatisfiable equation `0 = 1`. -/
lemma no_hotel_infeasible (I : MInstance) (hH : I.H = ∅) (hday : 0 < I.day) :
    ¬ ModelIsFeasible I := by
  rintro ⟨a, hfeas⟩
  obtain ⟨_, _, _, hc4, _⟩ := hfeas
  have := hc4 ⟨0, hday⟩
  rw [hH] at this
  simp at this

/-! Properties of the route-reconstruction scan. -/

/-- Unfolding of one iteration of the walk. -/
lemma walkAux_succ {n : ℕ} (xk : Fin n → Fin n → ℚ) (H : Finset (Fin n))
    (q : Fin n) (fuel : ℕ) (c : Fin n) (acc : List (Fin n × Fin n)) :
    walkAux xk H q (fuel+1) c acc =
      match firstArc xk c with
      | none => some acc
      | some j =>
        if j ∈ H ∧ j = q then some (acc ++ [(c, j)])
        else walkAux xk H q fuel j (acc ++ [(c, j)]) := rfl

/-- The walk stops with the accumulated route when no arc leaves `c`. -/
lemma walkAux_none {n : ℕ} {xk : Fin n → Fin n → ℚ} {H : Finset (Fin n)}
    {q c : Fin n} {fuel : ℕ} {acc : List (Fin n × Fin n)}
    (h : firstArc xk c = none) :
    walkAux xk H q (fuel+1) c acc = some acc := by
  rw [walkAux_succ, h]

/-- The walk stops after appending the arc back into the starting hotel. -/
lemma walkAux_stop {n : ℕ} {xk : Fin n → Fin n → ℚ} {H : Finset (Fin n)}
    {q c j : Fin n} {fuel : ℕ} {acc : List (Fin n × Fin n)}
    (h : firstArc xk c = some j) (hs : j ∈ H ∧ j = q) :
    walkAux xk H q (fuel+1) c acc = some (acc ++ [(c, j)]) := by
  rw [walkAux_succ, h]
  exact if_pos hs

/-- The walk appends the arc and advances otherwise. -/
lemma walkAux_go {n : ℕ} {xk : Fin n → Fin n → ℚ} {H : Finset (Fin n)}
    {q c j : Fin n} {fuel : ℕ} {acc : List (Fin n × Fin n)}
    (h : firstArc xk c = some j) (hs : ¬(j ∈ H ∧ j = q)) :
    walkAux xk H q (fuel+1) c acc = walkAux xk H q fuel j (acc ++ [(c, j)]) := by
  rw [walkAux_succ, h]
  exact if_neg hs

/-- What a found arc satisfies. -/
lemma firstArc_spec {n : ℕ} {xk : Fin n → Fin n → ℚ} {c j : Fin n}
    (h : firstArc xk c = some j) : j ≠ c ∧ 1/2 < xk c j := by
  have := List.find?_some h
  simpa [arcPred] using this

/-- When some arc leaves `c`, the scan finds one. -/
lemma firstArc_isSome {n : ℕ} {xk : Fin n → Fin n → ℚ} {c : Fin n}
    (h : ∃ j, j ≠ c ∧ 1/2 < xk c j) : ∃ j, firstArc xk c = some j := by
  obtain ⟨j, hj⟩ := h
  cases hfa : firstArc xk c with
  | some j' => exact ⟨j', rfl⟩
  | none =>
    exfalso
    have hnone := List.find?_eq_none.mp hfa j (List.mem_finRange j)
    simp [arcPred, ← one_div] at hnone
    exact absurd (hnone hj.1) (not_le.mpr hj.2)

/-- When no arc leaves `c`, the scan finds nothing. -/
lemma firstArc_none {n : ℕ} {xk : Fin n → Fin n → ℚ} {c : Fin n}
    (h : ∀ j : Fin n, ¬(j ≠ c ∧ 1/2 < xk c j)) : firstArc xk c = none := by
  refine List.find?_eq_none.mpr (fun j _ => ?_)
  simpa [arcPred] using h j

/-- What the found starting hotel satisfies. -/
lemma findStartHotel_spec {n : ℕ} {xk : Fin n → Fin n → ℚ} {H : Finset (Fin n)}
    {q : Fin n} (h : findStartHotel xk H = some q) :
    q ∈ H ∧ ∃ j, j ≠ q ∧ 1/2 < xk q j := by
  have hp := List.find?_some h
  simp only [Bool.and_eq_true, decide_eq_true_eq] at hp
  refine ⟨hp.1, ?_⟩
  have := hp.2
  simp only [hasOutArc, List.any_eq_true] at this
  obtain ⟨j, _, hj⟩ := this
  simp [arcPred, ← one_div] at hj
  exact ⟨j, hj⟩

/-- A visited attraction has an outgoing selected arc, and the scan finds
an arc with value 1. -/
lemma feas_out_arc (I : MInstance) (a : Assignment I.n I.day)
    (hfeas : ModelFeasible I a) (k : Fin I.day) {c : Fin I.n}
    (hc : c ∈ I.A) (hy : a.y c k = 1) :
    ∃ j, firstArc (xOnDay I a k) c = some j ∧ j ≠ c ∧ a.x c j k = 1 := by
  obtain ⟨hvb, _, _, _, _, hc6, _⟩ := hfeas
  have hout : (∑ j ∈ Finset.univ.erase c, a.x c j k) = 1 := by
    rw [(hc6 k c hc).1, hy]
  have hex : ∃ j ∈ Finset.univ.erase c, a.x c j k ≠ 0 := by
    apply Finset.exists_ne_zero_of_sum_ne_zero
    rw [hout]
    norm_num
  obtain ⟨j0, hj0mem, hj0⟩ := hex
  have hx1 : a.x c j0 k = 1 := binEqOne (hvb.1 c j0 k) hj0
  have hj0c : j0 ≠ c := (Finset.mem_erase.mp hj0mem).1
  have hhalf : (1:ℚ)/2 < 1 := by norm_num
  obtain ⟨j, hfa⟩ := @firstArc_isSome I.n (xOnDay I a k) c
    ⟨j0, hj0c, by simpa [xOnDay, hx1] using hhalf⟩
  obtain ⟨hjne, hjhalf⟩ := firstArc_spec hfa
  exact ⟨j, hfa, hjne, (binHalf (hvb.1 c j k)).mp hjhalf⟩

/-- An attraction entered by a selected arc is visited that day. -/
lemma feas_y_of_in_arc (I : MInstance) (a : Assignment I.n I.day)
    (hfeas : ModelFeasible I a) (k : Fin I.day) {i j : Fin I.n}
    (hj : j ∈ I.A) (hij : i ≠ j) (hx : a.x i j k = 1) : a.y j k = 1 := by
  obtain ⟨hvb, _, _, _, _, hc6, _⟩ := hfeas
  have hin := (hc6 k j hj).2
  have hterm : (1:ℚ) ≤ ∑ p ∈ Finset.univ.erase j, a.x p j k := by
    have hs : a.x i j k ≤ ∑ p ∈ Finset.univ.erase j, a.x p j k := by
      simpa using @Finset.single_le_sum (Fin I.n) ℚ _ (fun p => a.x p j k) _
        (fun p _ => binNonneg (hvb.1 p j k)) _
        (Finset.mem_erase.mpr ⟨hij, Finset.mem_univ i⟩)
    rw [hx] at hs
    exact hs
  rw [hin] at hterm
  rcases hvb.2.1 j k with h | h
  · rw [h] at hterm; norm_num at hterm
  · exact h

/-- MTZ: a selected attraction-to-attraction arc strictly increases `u`. -/
lemma feas_u_step (I : MInstance) (a : Assignment I.n I.day)
    (hfeas : ModelFeasible I a) (k : Fin I.day) {i j : Fin I.n}
    (hi : i ∈ I.A) (hj : j ∈ I.A) (hij : i ≠ j) (hx : a.x i j k = 1) :
    a.u i k + 1 ≤ a.u j k := by
  obtain ⟨_, _, _, _, _, _, hc7, _⟩ := hfeas
  have hmtz := hc7 k i hi j hj hij
  rw [hx, mul_one] at hmtz
  have hq : (a.u i k : ℚ) + 1 ≤ (a.u j k : ℚ) := by linarith
  exact_mod_cast hq

/-- A selected arc out of a hotel lands on an attraction. -/
lemma hotel_arc_to_attraction (I : MInstance) (a : Assignment I.n I.day)
    (hfeas : ModelFeasible I a) (hcover : ∀ i, i ∈ I.H ∨ i ∈ I.A)
    (k : Fin I.day) {q j : Fin I.n} (hq : q ∈ I.H) (hjq : j ≠ q)
    (hx : a.x q j k = 1) : j ∈ I.A := by
  obtain ⟨_, _, _, _, _, _, _, _, _, _, _, _, _, _, _, hc18⟩ := hfeas
  rcases hcover j with hjH | hjA
  · have := hc18 k q hq j hjH (Ne.symm hjq)
    rw [this] at hx
    norm_num at hx
  · exact hjA

/-- Once the day's unique hotel departure is used by `q`, no arc leaves any
other hotel. -/
lemma hotel_stuck (I : MInstance) (a : Assignment I.n I.day)
    (hfeas : ModelFeasible I a) (hcover : ∀ i, i ∈ I.H ∨ i ∈ I.A)
    (k : Fin I.day) {q j1 : Fin I.n} (hq : q ∈ I.H) (hj1A : j1 ∈ I.A)
    (hj1q : j1 ≠ q) (hx1 : a.x q j1 k = 1) :
    ∀ r ∈ I.H, r ≠ q → firstArc (xOnDay I a k) r = none := by
  intro r hr hrq
  apply firstArc_none
  rintro j ⟨hjr, hjhalf⟩
  obtain ⟨hvb, _, _, hc4, _, _, _, _, _, _, _, _, _, _, _, hc18⟩ := hfeas
  have hxrj : a.x r j k = 1 := (binHalf (hvb.1 r j k)).mp hjhalf
  rcases hcover j with hjH | hjA
  · have := hc18 k r hr j hjH (Ne.symm hjr)
    rw [this] at hxrj
    norm_num at hxrj
  · have h2 : a.x q j1 k + a.x r j k ≤ ∑ p ∈ I.H, ∑ b ∈ I.A.erase p, a.x p b k :=
      nested_sum_ge_two_terms (fun p _ b _ => binNonneg (hvb.1 p b k)) (Ne.symm hrq)
        hq hr (Finset.mem_erase.mpr ⟨hj1q, hj1A⟩) (Finset.mem_erase.mpr ⟨hjr, hjA⟩)
    rw [hc4 k, hx1, hxrj] at h2
    norm_num at h2

/-- On day 0, every selected attraction-to-hotel arc returns to the
departure hotel (constraints (5) and (17)). -/
lemma day0_return (I : MInstance) (a : Assignment I.n I.day)
    (hfeas : ModelFeasible I a) (hdisj : ∀ i, i ∈ I.H → i ∉ I.A)
    (k : Fin I.day) (hk0 : k.val = 0) {q j1 : Fin I.n} (hq : q ∈ I.H)
    (hj1A : j1 ∈ I.A) (hx1 : a.x q j1 k = 1) :
    ∀ c j, c ∈ I.A → j ∈ I.H → a.x c j k = 1 → j = q := by
  intro c j hcA hjH hxcj
  obtain ⟨hvb, _, _, _, hc5, _, _, _, _, _, _, _, _, _, hc17, _⟩ := hfeas
  have hdep : (1:ℚ) ≤ ∑ p ∈ I.A, a.x q p k := by
    have hs : a.x q j1 k ≤ ∑ p ∈ I.A, a.x q p k := by
      simpa using @Finset.single_le_sum (Fin I.n) ℚ _ (fun p => a.x q p k) _
        (fun p _ => binNonneg (hvb.1 q p k)) _ hj1A
    rw [hx1] at hs
    exact hs
  have h17 := hc17 k hk0 q hq
  have hret : (1:ℚ) ≤ ∑ p ∈ I.A, a.x p q k := by linarith
  have hex : ∃ i0 ∈ I.A, a.x i0 q k ≠ 0 := by
    apply Finset.exists_ne_zero_of_sum_ne_zero
    intro h0
    rw [h0] at hret
    norm_num at hret
  obtain ⟨i0, hi0A, hi0⟩ := hex
  have hxi0 : a.x i0 q k = 1 := binEqOne (hvb.1 i0 q k) hi0
  by_contra hjq
  have hi0q : i0 ≠ q := fun he => hdisj q hq (he ▸ hi0A)
  have hcj : c ≠ j := fun he => hdisj j hjH (he ▸ hcA)
  have h2 : a.x i0 q k + a.x c j k ≤ ∑ p ∈ I.H, ∑ b ∈ I.A.erase p, a.x b p k :=
    @nested_sum_ge_two_terms (Fin I.n) (Fin I.n) _ I.H (fun p => I.A.erase p)
      (fun p b => a.x b p k)
      (fun p _ b _ => binNonneg (hvb.1 b p k)) q j i0 c (fun he => hjq he.symm)
      hq hjH (Finset.mem_erase.mpr ⟨hi0q, hi0A⟩) (Finset.mem_erase.mpr ⟨hcj, hcA⟩)
  rw [hc5 k, hxi0, hxcj] at h2
  norm_num at h2

/-- Core walk invariant: from a visited attraction, a feasible assignment
forces the walk to reach a hotel before its fuel runs out (the MTZ order
markers strictly increase along attraction-to-attraction arcs), and the
route's last arc enters a hotel — on day 0, the starting hotel itself. -/
lemma walk_reaches_hotel (I : MInstance) (a : Assignment I.n I.day)
    (hfeas : ModelFeasible I a) (hcover : ∀ i, i ∈ I.H ∨ i ∈ I.A)
    (k : Fin I.day) (q : Fin I.n)
    (hstuck : ∀ r ∈ I.H, r ≠ q → firstArc (xOnDay I a k) r = none)
    (hret : k.val = 0 → ∀ c j, c ∈ I.A → j ∈ I.H → a.x c j k = 1 → j = q) :
    ∀ fuel (c : Fin I.n) (acc : List (Fin I.n × Fin I.n)),
      c ∈ I.A → a.y c k = 1 → I.n + 1 ≤ fuel + (a.u c k).toNat →
      ∃ tail p, walkAux (xOnDay I a k) I.H q fuel c acc = some (acc ++ tail) ∧
        tail.getLast? = some p ∧ p.2 ∈ I.H ∧ (k.val = 0 → p.2 = q) := by
  intro fuel
  induction fuel with
  | zero =>
    intro c acc hc hy hfuel
    exfalso
    obtain ⟨hlb, hub⟩ := hfeas.1.2.2.1 c k
    omega
  | succ fuel ih =>
    intro c acc hc hy hfuel
    obtain ⟨j, hfa, hjc, hxj⟩ := feas_out_arc I a hfeas k hc hy
    by_cases hstop : j ∈ I.H ∧ j = q
    · refine ⟨[(c, j)], (c, j), ?_, rfl, hstop.1, fun _ => hstop.2⟩
      rw [walkAux_stop hfa hstop]
    · rw [walkAux_go hfa hstop]
      rcases hcover j with hjH | hjA
      · have hjq : j ≠ q := fun h => hstop ⟨hjH, h⟩
        by_cases hk0 : k.val = 0
        · exact absurd (hret hk0 c j hc hjH hxj) hjq
        · cases fuel with
          | zero =>
            exfalso
            obtain ⟨hlb, hub⟩ := hfeas.1.2.2.1 c k
            omega
          | succ fuel' =>
            refine ⟨[(c, j)], (c, j), ?_, rfl, hjH, fun h0 => absurd h0 hk0⟩
            rw [walkAux_none (hstuck j hjH hjq)]
      · have hyj : a.y j k = 1 := feas_y_of_in_arc I a hfeas k hjA (Ne.symm hjc) hxj
        have hu := feas_u_step I a hfeas k hc hjA (Ne.symm hjc) hxj
        have hfuel' : I.n + 1 ≤ fuel + (a.u j k).toNat := by
          obtain ⟨hlbc, _⟩ := hfeas.1.2.2.1 c k
          omega
        obtain ⟨tail, p, heq, hlast, hpH, hpq⟩ := ih j (acc ++ [(c, j)]) hjA hyj hfuel'
        refine ⟨(c, j) :: tail, p, ?_, ?_, hpH, hpq⟩
        · rw [heq, List.append_assoc]
          rfl
        · cases tail with
          | nil => simp at hlast
          | cons hd tl =>
            rw [List.getLast?_cons_cons]
            exact hlast

/-- For every feasible assignment, the reconstruction with fuel `n + 1`
yields a route whose first arc leaves a hotel and whose last arc enters a
hotel; on day 0 the two hotels coincide. -/
lemma reconstruct_endpoints (I : MInstance) (a : Assignment I.n I.day)
    (hfeas : ModelFeasible I a) (hcover : ∀ i, i ∈ I.H ∨ i ∈ I.A)
    (hdisj : ∀ i, i ∈ I.H → i ∉ I.A) (k : Fin I.day)
    (hne : reconstructDay I a k ≠ []) :
    ∃ pf pl, (reconstructDay I a k).head? = some pf ∧
      (reconstructDay I a k).getLast? = some pl ∧
      pf.1 ∈ I.H ∧ pl.2 ∈ I.H ∧ (k.val = 0 → pl.2 = pf.1) := by
  unfold reconstructDay at hne ⊢
  cases hfs : findStartHotel (xOnDay I a k) I.H with
  | none =>
    rw [hfs] at hne
    exact (hne rfl).elim
  | some q =>
    dsimp only at hne ⊢
    obtain ⟨hq, jex, hjexq, hjexhalf⟩ := findStartHotel_spec hfs
    obtain ⟨j1, hfa⟩ := @firstArc_isSome I.n (xOnDay I a k) q ⟨jex, hjexq, hjexhalf⟩
    obtain ⟨hj1q, hj1half⟩ := firstArc_spec hfa
    have hxbin := hfeas.1.1
    have hx1 : a.x q j1 k = 1 := (binHalf (hxbin q j1 k)).mp hj1half
    have hj1A : j1 ∈ I.A := hotel_arc_to_attraction I a hfeas hcover k hq hj1q hx1
    have hy1 : a.y j1 k = 1 := feas_y_of_in_arc I a hfeas k hj1A (Ne.symm hj1q) hx1
    have hstuck := hotel_stuck I a hfeas hcover k hq hj1A hj1q hx1
    have hret : k.val = 0 → ∀ c j, c ∈ I.A → j ∈ I.H → a.x c j k = 1 → j = q :=
      fun hk0 => day0_return I a hfeas hdisj k hk0 hq hj1A hx1
    have hnstop : ¬(j1 ∈ I.H ∧ j1 = q) := fun hs => hdisj j1 hs.1 hj1A
    have hfuel : I.n + 1 ≤ I.n + (a.u j1 k).toNat := by
      have hylow := (hfeas.2.2.2.2.2.2.2.2.1 k j1 hj1A).1
      rw [hy1] at hylow
      have : (1 : ℤ) ≤ a.u j1 k := by exact_mod_cast hylow
      omega
    obtain ⟨tail, p, heq, hlast, hpH, hpq⟩ :=
      walk_reaches_hotel I a hfeas hcover k q hstuck hret I.n j1 [(q, j1)] hj1A hy1 hfuel
    rw [walkAux_go hfa hnstop, List.nil_append, heq]
    refine ⟨(q, j1), p, rfl, ?_, hq, hpH, fun h0 => hpq h0⟩
    show ((q, j1) :: tail).getLast? = some p
    cases tail with
    | nil => simp at hlast
    | cons hd tl =>
      rw [List.getLast?_cons_cons]
      exact hlast

/-- On the looping arc values `x9`, the walk never finishes from node 1
or node 2, whatever the fuel and accumulated route. -/
lemma c9_loop : ∀ fuel (acc : List (Fin 3 × Fin 3)),
    walkAux x9 H9 0 fuel 1 acc = none ∧ walkAux x9 H9 0 fuel 2 acc = none := by
  have h1 : firstArc x9 1 = some 2 := by with_unfolding_all decide
  have h2 : firstArc x9 2 = some 1 := by with_unfolding_all decide
  have hs1 : ¬((2 : Fin 3) ∈ H9 ∧ (2 : Fin 3) = 0) := by decide
  have hs2 : ¬((1 : Fin 3) ∈ H9 ∧ (1 : Fin 3) = 0) := by decide
  intro fuel
  induction fuel with
  | zero => exact fun acc => ⟨rfl, rfl⟩
  | succ f ih =>
    intro acc
    constructor
    · rw [walkAux_go h1 hs1]
      exact (ih _).2
    · rw [walkAux_go h2 hs2]
      exact (ih _).1

/-- Along a chain of selected attraction-to-attraction arcs, the MTZ order
markers strictly increase from the head to the final node. -/
lemma chain_u_lt (I : MInstance) (a : Assignment I.n I.day) (k : Fin I.day)
    (hord : ∀ i j, i ∈ I.A → j ∈ I.A → i ≠ j → a.x i j k = 1 → a.u i k < a.u j k) :
    ∀ (l : List (Fin I.n)) (c b : Fin I.n), c ∈ I.A → b ∈ I.A →
      (∀ m ∈ l, m ∈ I.A) →
      List.Chain (fun p r => p ≠ r ∧ a.x p r k = 1) c (l ++ [b]) →
      a.u c k < a.u b k := by
  intro l
  induction l with
  | nil =>
    intro c b hc hb _ hchain
    rw [List.nil_append] at hchain
    rcases List.chain_cons.mp hchain with ⟨⟨hne, hx⟩, _⟩
    exact hord c b hc hb hne hx
  | cons m l ih =>
    intro c b hc hb hmem hchain
    rw [List.cons_append] at hchain
    rcases List.chain_cons.mp hchain with ⟨⟨hne, hx⟩, htail⟩
    have hmA : m ∈ I.A := hmem m (List.mem_cons_self m l)
    exact lt_trans (hord c m hc hmA hne hx)
      (ih m b hmA hb (fun p hp => hmem p (List.mem_cons_of_mem m hp)) htail)

/-- The cleaned record of the hotel row with a supplied duration of 5 and
no `is_hotel` key. -/
def cH5 : CleanedPlace :=
  { name := "H", lat := none, lon := none, duration := 5, is_hotel := true }

/-- Claim C2, counterexample: a record in `potential_hotels` whose own
`is_hotel` key is missing keeps its supplied duration 5 — the normalized
visit duration of a hotel-list record is not forced to 0. -/
theorem c2_counterexample :
    (cleaned_places [hotelDur5] []).map (fun c => (c.is_hotel, c.duration)) =
      [(true, 5)] ∧ (5 : ℚ) ≠ 0 :=
  ⟨by with_unfolding_all decide, by norm_num⟩

/-- Claim C2 (amended): every normalized place's `is_hotel` flag equals
membership of its source record in `potential_hotels`, and its visit
duration is forced to 0 exactly when the record's own `is_hotel` field is
truthy — otherwise it is the supplied duration (default 0), even for
records of the hotel list. -/
theorem c2_amended (potential_hotels potential_attractions : List RawPlace)
    (c : CleanedPlace) (hc : c ∈ cleaned_places potential_hotels potential_attractions) :
    ∃ p ∈ potential_hotels ++ potential_attractions,
      cleanPlace potential_hotels p = some c ∧
      (c.is_hotel = true ↔ p ∈ potential_hotels) ∧
      c.duration = (if p.is_hotel.getD false then 0 else p.duration.getD 0) := by
  obtain ⟨p, hp, hcp⟩ := List.mem_filterMap.mp hc
  have hcp' := hcp
  unfold cleanPlace at hcp'
  cases hn : p.name with
  | none => rw [hn] at hcp'; simp at hcp'
  | some s =>
    rw [hn] at hcp'
    dsimp only at hcp'
    by_cases hs : s = ""
    · rw [if_pos hs] at hcp'; simp at hcp'
    · rw [if_neg hs] at hcp'
      have hc' := Option.some.inj hcp'
      refine ⟨p, hp, hcp, ?_, ?_⟩
      · rw [← hc']
        simp
      · rw [← hc']

/-- Claim C2 witness: the amended statement evaluated on the concrete
hotel record with a supplied duration and no `is_hotel` key. -/
theorem c2_witness :
    cH5 ∈ cleaned_places [hotelDur5] [] ∧
    ∃ p ∈ [hotelDur5] ++ [],
      cleanPlace [hotelDur5] p = some cH5 ∧
      (cH5.is_hotel = true ↔ p ∈ [hotelDur5]) ∧
      cH5.duration = (if p.is_hotel.getD false then 0 else p.duration.getD 0) :=
  ⟨by with_unfolding_all decide,
   c2_amended [hotelDur5] [] cH5 (by with_unfolding_all decide)⟩

/-- Claim C3, counterexample: in Scenario B (strict mode, budget 1/2 hour
below every leg) no variable assignment satisfies the model at all — the
mandatory daily hotel departure of constraint (4) cannot fit the budget,
so the solve cannot yield any result with empty day routes and a positive
omission penalty. -/
theorem c3_counterexample : ¬ ModelIsFeasible scenB :=
  strict_budget_infeasible scenB rfl (by decide)
    (by with_unfolding_all decide) (by with_unfolding_all decide)
    (by with_unfolding_all decide)

/-- Claim C3 (amended): in strict mode, a daily budget below every
hotel-attraction leg time makes the model infeasible (the daily departure
constraint is mandatory in both modes); the solver reports no solution and
the result keeps its defaults, rather than returning empty day routes with
a positive penalty. -/
theorem c3_amended (I : MInstance) (hflex : I.flexible = false) (hday : 0 < I.day)
    (ht : ∀ i j, 0 ≤ I.t i j) (hv : ∀ i, 0 ≤ I.visitingTime i)
    (hbudget : ∀ q ∈ I.H, ∀ j ∈ I.A.erase q, I.Tmax < I.t q j) :
    ¬ ModelIsFeasible I :=
  strict_budget_infeasible I hflex hday ht hv hbudget

/-- Claim C3 witness: the amended statement at Scenario B with budget 1/4. -/
theorem c3_witness : ¬ ModelIsFeasible scenB4 :=
  c3_amended scenB4 rfl (by decide) (by with_unfolding_all decide)
    (by with_unfolding_all decide) (by with_unfolding_all decide)

/-- Claim C5: for every feasible assignment, a selected arc between two
distinct attractions strictly increases the MTZ order marker, and hence no
day's selected arcs contain a closed chain among attractions (a cycle
excluding the departure hotel). -/
theorem c5_subtour_free (I : MInstance) (a : Assignment I.n I.day)
    (hfeas : ModelFeasible I a) :
    (∀ (k : Fin I.day) i j, i ∈ I.A → j ∈ I.A → i ≠ j → a.x i j k = 1 →
      a.u i k < a.u j k) ∧
    (∀ (k : Fin I.day) (c : Fin I.n) (l : List (Fin I.n)), c ∈ I.A →
      (∀ m ∈ l, m ∈ I.A) →
      ¬ List.Chain (fun p r => p ≠ r ∧ a.x p r k = 1) c (l ++ [c])) := by
  have hord : ∀ (k : Fin I.day) i j, i ∈ I.A → j ∈ I.A → i ≠ j →
      a.x i j k = 1 → a.u i k < a.u j k := by
    intro k i j hi hj hij hx
    have := feas_u_step I a hfeas k hi hj hij hx
    omega
  refine ⟨hord, ?_⟩
  intro k c l hc hmem hchain
  exact lt_irrefl _ (chain_u_lt I a k (hord k) l c c hc hc hmem hchain)

/-- Claim C5 witness: on the Scenario-A tour 0 → 1 → 2 → 0, the selected
arc 1 → 2 yields `u 1 < u 2`. -/
theorem c5_witness : ModelFeasible I3 A3 ∧ A3.u 1 0 < A3.u 2 0 :=
  ⟨by with_unfolding_all decide,
   (c5_subtour_free I3 A3 (by with_unfolding_all decide)).1 (0 : Fin 1)
     (1 : Fin 3) (2 : Fin 3) (by decide) (by decide) (by decide)
     (by with_unfolding_all decide)⟩

/-- Claim C6, counterexample: with an empty hotel list no synthetic hotel
appears anywhere — the hotel index list is empty, no cleaned place is
flagged as a hotel, the objective normalizations succeed, and the model is
infeasible (daily departure constraint `0 = 1`). -/
theorem c6_counterexample :
    hotel_indices [] [pC1, pC2, pC3] = [] ∧
    (cleaned_places [] [pC1, pC2, pC3]).all (fun c => !c.is_hotel) = true ∧
    c6inst.H = ∅ ∧ buildChecks c6inst = some () ∧ ¬ ModelIsFeasible c6inst := by
  refine ⟨rfl, by with_unfolding_all decide, by with_unfolding_all decide,
    by with_unfolding_all decide, ?_⟩
  exact no_hotel_infeasible c6inst (by with_unfolding_all decide) (by decide)

/-- Claim C6 (amended): a call with an empty hotel list creates no
fallback hotel: the built instance's hotel set is empty and its model is
infeasible for every positive trip length, so the solver can only report
infeasibility (and `solve_itinerary` then returns the single itinerary
assembled from the default results, with no daily routes). -/
theorem c6_amended (potential_attractions : List RawPlace)
    (dmat tmat : ℕ → ℕ → ℚ) (days : ℕ) (maxH : ℚ) (flex : Bool)
    (hday : 0 < days) :
    hotel_indices [] potential_attractions = [] ∧
    (buildInstance [] potential_attractions dmat tmat days maxH flex).H = ∅ ∧
    ¬ ModelIsFeasible (buildInstance [] potential_attractions dmat tmat days maxH flex) := by
  have h1 : hotel_indices [] potential_attractions = [] := rfl
  have h2 : (buildInstance [] potential_attractions dmat tmat days maxH flex).H = ∅ := by
    show (Finset.univ.filter
      (fun i : Fin (cleaned_places [] potential_attractions).length =>
        (i : ℕ) ∈ hotel_indices [] potential_attractions)) = ∅
    rw [h1]
    simp
  exact ⟨h1, h2, no_hotel_infeasible _ h2 hday⟩

/-- Claim C6 witness: the amended statement at the concrete two-day
hotel-less call. -/
theorem c6_witness :
    hotel_indices [] [pC1, pC2, pC3] = [] ∧ c6winst.H = ∅ ∧
    ¬ ModelIsFeasible c6winst :=
  c6_amended [pC1, pC2, pC3] d6 t6 2 5 true (by decide)

/-- Claim C7, counterexample: a caller-supplied weight of 0 is replaced by
0.5 — `data['alpha'] or 0.5` treats the falsy value 0 like a missing key. -/
theorem c7_counterexample :
    alphaUsed { distance_weight := some 0, time_balance_weight := some 0 } = 1/2 ∧
    betaUsed { distance_weight := some 0, time_balance_weight := some 0 } = 1/2 ∧
    (1/2 : ℚ) ≠ 0 := by
  refine ⟨?_, ?_, by norm_num⟩ <;> with_unfolding_all decide

/-- Claim C7 (amended): the objective weights equal the caller-supplied
values whenever those are nonzero; a supplied 0 — like an omitted key —
is replaced by the default 0.5. -/
theorem c7_amended (w : ObjectiveWeights) :
    (∀ v, w.distance_weight = some v → v ≠ 0 → alphaUsed w = v) ∧
    (w.distance_weight = none → alphaUsed w = 1/2) ∧
    (w.distance_weight = some 0 → alphaUsed w = 1/2) ∧
    (∀ v, w.time_balance_weight = some v → v ≠ 0 → betaUsed w = v) ∧
    (w.time_balance_weight = none → betaUsed w = 1/2) ∧
    (w.time_balance_weight = some 0 → betaUsed w = 1/2) := by
  refine ⟨?_, ?_, ?_, ?_, ?_, ?_⟩
  · intro v hv hne
    simp [alphaUsed, pyOrHalf, hv, hne]
  · intro hv
    simp [alphaUsed, pyOrHalf, hv]
  · intro hv
    simp [alphaUsed, pyOrHalf, hv]
  · intro v hv hne
    simp [betaUsed, pyOrHalf, hv, hne]
  · intro hv
    simp [betaUsed, pyOrHalf, hv]
  · intro hv
    simp [betaUsed, pyOrHalf, hv]

/-- Claim C7 witness: supplied nonzero weights pass through unchanged. -/
theorem c7_witness :
    alphaUsed { distance_weight := some (7/10), time_balance_weight := some (3/10) } = 7/10 :=
  (c7_amended { distance_weight := some (7/10), time_balance_weight := some (3/10) }).1
    (7/10) rfl (by norm_num)

/-- Claim C1, counterexample: with two named hotels and zero attractions
the cleaned place table is non-empty, so the early return is not taken;
model building then raises (division by zero in the normalizations) and
no itinerary list — in particular not the empty one — is returned. -/
theorem c1_counterexample :
    cleaned_places [hG, hK] [] ≠ [] ∧
    solve_itinerary [hG, hK] [] (fun _ _ => 0) (fun _ _ => 0) 1 10 true
      infeasibleResults = none := by
  constructor
  · with_unfolding_all decide
  · with_unfolding_all decide

/-- Claim C1 (amended): `solve_itinerary` returns an empty itinerary list
without invoking the solver exactly when no supplied place survives name
cleaning; when places survive but no attraction index exists, the
objective normalizations raise before `model.optimize()` — the solver is
still not invoked, but the call raises instead of returning `[]`. -/
theorem c1_amended (potential_hotels potential_attractions : List RawPlace)
    (dmat tmat : ℕ → ℕ → ℚ) (days : ℕ) (maxH : ℚ) (flex : Bool)
    (solved : PyResults) :
    (cleaned_places potential_hotels potential_attractions = [] →
      solve_itinerary potential_hotels potential_attractions dmat tmat days maxH
        flex solved = some [] ∧
      ¬ solverInvoked potential_hotels potential_attractions dmat tmat days maxH flex) ∧
    (cleaned_places potential_hotels potential_attractions ≠ [] →
      attraction_indices potential_hotels potential_attractions = [] →
      solve_itinerary potential_hotels potential_attractions dmat tmat days maxH
        flex solved = none ∧
      ¬ solverInvoked potential_hotels potential_attractions dmat tmat days maxH flex) := by
  constructor
  · intro hemp
    constructor
    · unfold solve_itinerary
      rw [if_pos hemp]
    · rintro ⟨hne, _⟩
      exact hne hemp
  · intro hne hA
    have hAempty : (buildInstance potential_hotels potential_attractions dmat tmat
        days maxH flex).A = ∅ := by
      show (Finset.univ.filter
        (fun i : Fin (cleaned_places potential_hotels potential_attractions).length =>
          (i : ℕ) ∈ attraction_indices potential_hotels potential_attractions)) = ∅
      rw [hA]
      simp
    have hchk : buildChecks (buildInstance potential_hotels potential_attractions
        dmat tmat days maxH flex) = none := by
      unfold buildChecks
      rw [hAempty]
      split_ifs with h1 h2 h3 h4
      · rfl
      · rfl
      · rfl
      · rfl
      · exact absurd (by simp) h4
    constructor
    · unfold solve_itinerary
      rw [if_neg hne, if_pos hchk]
    · rintro ⟨_, hbc⟩
      exact hbc hchk

/-- Claim C1 witness: the amended statement in its empty-input case. -/
theorem c1_witness :
    cleaned_places ([] : List RawPlace) [] = [] ∧
    solve_itinerary [] [] (fun _ _ => 0) (fun _ _ => 0) 1 10 true
      infeasibleResults = some [] ∧
    ¬ solverInvoked [] [] (fun _ _ => 0) (fun _ _ => 0) 1 10 true := by
  have h := (c1_amended [] [] (fun _ _ => 0) (fun _ _ => 0) 1 10 true
    infeasibleResults).1 rfl
  exact ⟨rfl, h.1, h.2⟩

/-- Claim C4, counterexample: a feasible two-day assignment whose second
(final) day departs hotel 0 but returns to hotel 1 — hotel continuity ties
each day's departure only to the previous day's return, so the last day's
reconstructed route starts and ends at different hotel indices. -/
theorem c4_counterexample :
    ModelFeasible I4 A4 ∧
    reconstructDay I4 A4 (1 : Fin 2) = ([(0, 3), (3, 1)] : List (Fin 4 × Fin 4)) ∧
    ((0 : Fin 4) ∈ I4.H ∧ (1 : Fin 4) ∈ I4.H) ∧ (0 : Fin 4) ≠ (1 : Fin 4) :=
  ⟨by with_unfolding_all decide, by with_unfolding_all decide, by decide, by decide⟩

/-- Claim C4 (amended): for every feasible assignment and every day, a
non-empty reconstructed route's first arc leaves a hotel and its last arc
enters a hotel; on day 0 the two hotels coincide, but on later days the
return hotel may differ from the departure hotel. -/
theorem c4_amended (I : MInstance) (a : Assignment I.n I.day)
    (hfeas : ModelFeasible I a) (hcover : ∀ i, i ∈ I.H ∨ i ∈ I.A)
    (hdisj : ∀ i, i ∈ I.H → i ∉ I.A) (k : Fin I.day)
    (hne : reconstructDay I a k ≠ []) :
    ∃ pf pl, (reconstructDay I a k).head? = some pf ∧
      (reconstructDay I a k).getLast? = some pl ∧
      pf.1 ∈ I.H ∧ pl.2 ∈ I.H ∧ (k.val = 0 → pl.2 = pf.1) :=
  reconstruct_endpoints I a hfeas hcover hdisj k hne

/-- Claim C4 witness: the amended statement on the Scenario-A solve,
whose single day starts and ends at the unique hotel. -/
theorem c4_witness :
    ModelFeasible I3 A3 ∧
    ∃ pf pl, (reconstructDay I3 A3 (0 : Fin 1)).head? = some pf ∧
      (reconstructDay I3 A3 (0 : Fin 1)).getLast? = some pl ∧
      pf.1 ∈ I3.H ∧ pl.2 ∈ I3.H ∧ pl.2 = pf.1 := by
  have hm : ModelFeasible I3 A3 := by with_unfolding_all decide
  refine ⟨hm, ?_⟩
  obtain ⟨pf, pl, h1, h2, h3, h4, h5⟩ :=
    c4_amended I3 A3 hm (by decide) (by decide) (0 : Fin 1)
      (by with_unfolding_all decide)
  exact ⟨pf, pl, h1, h2, h3, h4, h5 rfl⟩

/-- Claim C8, counterexample: a feasible strict-mode assignment that drops
an attraction makes the selected-arc distance fall below
`Σ_i min_{j≠i} d[i][j]`, so the normalized distance component is negative
— it does not lie in `[0, 1]`. -/
theorem c8_counterexample :
    ModelFeasible I8 A8 ∧ normalizationDist I8 A8 = some (-(5/8)) ∧
    ¬ (0 ≤ (-(5/8) : ℚ)) :=
  ⟨by with_unfolding_all decide, by with_unfolding_all decide, by norm_num⟩

/-- Claim C8 (amended): for every feasible assignment the normalized
omission-penalty component lies in `[0, 1]` whenever at least one
attraction exists; the distance, slack and time-balance components are not
so bounded (the distance component can be negative when strict mode drops
attractions, and slack has no upper bound). -/
theorem c8_amended (I : MInstance) (a : Assignment I.n I.day)
    (hfeas : ModelFeasible I a) (hA : 0 < I.A.card) :
    0 ≤ normalizationPenalty I a ∧ normalizationPenalty I a ≤ 1 := by
  obtain ⟨hvb, hc2, _, _, _, hc6, _⟩ := hfeas
  have hbound : ∀ i ∈ I.A, 0 ≤ 1 - (∑ k, a.y i k) ∧ 1 - (∑ k, a.y i k) ≤ 1 := by
    intro i hi
    have hyn : 0 ≤ ∑ k, a.y i k :=
      Finset.sum_nonneg (fun k _ => binNonneg (hvb.2.1 i k))
    have hsy : (∑ k, a.y i k) = ∑ k, ∑ p ∈ Finset.univ.erase i, a.x p i k :=
      Finset.sum_congr rfl (fun k _ => ((hc6 k i hi).2).symm)
    have hup : (∑ k, a.y i k) ≤ 1 := by
      rw [hsy]
      cases hfl : I.flexible with
      | false => exact ((hc2 i hi).2 hfl).2
      | true => exact le_of_eq ((hc2 i hi).1 hfl)
    exact ⟨by linarith, by linarith⟩
  have hpen0 : 0 ≤ objectivePenalty I a :=
    Finset.sum_nonneg (fun i hi => (hbound i hi).1)
  have hpenA : objectivePenalty I a ≤ (I.A.card : ℚ) := by
    calc objectivePenalty I a ≤ ∑ _i ∈ I.A, (1 : ℚ) :=
          Finset.sum_le_sum (fun i hi => (hbound i hi).2)
      _ = (I.A.card : ℚ) := by simp
  have hcpos : (0 : ℚ) < (I.A.card : ℚ) := by exact_mod_cast hA
  unfold normalizationPenalty
  constructor
  · exact div_nonneg hpen0 (le_of_lt hcpos)
  · rw [div_le_one hcpos]
    exact hpenA

/-- Claim C8 witness: the amended bounds on the dropped-attraction solve,
where the penalty component equals 1/2. -/
theorem c8_witness :
    ModelFeasible I8 A8 ∧ 0 < I8.A.card ∧
    (0 ≤ normalizationPenalty I8 A8 ∧ normalizationPenalty I8 A8 ≤ 1) := by
  have hm : ModelFeasible I8 A8 := by with_unfolding_all decide
  exact ⟨hm, by decide, c8_amended I8 A8 hm (by decide)⟩

/-- Claim C9: the reconstruction walk does not terminate on every solver
variable assignment — on arc values forming the closed loop 1 → 2 → 1
among attractions (all values binary, start hotel 0 with a single arc into
the loop), the `while True` loop of `run_optimize` never finishes: the
`visited` set it builds is never consulted. -/
theorem c9_walk_diverges :
    (x9 0 1 = 1 ∧ x9 1 2 = 1 ∧ x9 2 1 = 1 ∧
      (1 : Fin 3) ∉ H9 ∧ (2 : Fin 3) ∉ H9 ∧ (0 : Fin 3) ∈ H9) ∧
    ¬ WalkTerminates x9 H9 0 := by
  constructor
  · exact ⟨by with_unfolding_all decide, by with_unfolding_all decide,
      by with_unfolding_all decide, by decide, by decide, by decide⟩
  · rintro ⟨fuel, hterm⟩
    cases fuel with
    | zero => simp [walkAux] at hterm
    | succ f =>
      have h0 : firstArc x9 0 = some 1 := by with_unfolding_all decide
      have hs0 : ¬((1 : Fin 3) ∈ H9 ∧ (1 : Fin 3) = 0) := by decide
      rw [walkAux_go h0 hs0] at hterm
      rw [(c9_loop f _).1] at hterm
      simp at hterm

/-- Claim C10: on a valid 1-hotel 1-attraction input every distance row
has a single off-diagonal entry, so `max_d = min_d` and the distance
normalization divides by zero: `run_optimize` raises before any result
structure is produced. -/
theorem c10_div_by_zero :
    (cleaned_places [h10] [a10]).length = 2 ∧
    distDenominator I10 = 0 ∧ buildChecks I10 = none ∧
    solve_itinerary [h10] [a10] d10 t10 1 10 true infeasibleResults = none := by
  refine ⟨rfl, ?_, ?_, ?_⟩ <;> with_unfolding_all decide
